import Mathlib

/-!
Verification of the session / buffering / stitching layer of the
whisper-streaming websocket server (`whisper_websocket_server.py`),
shallowly embedded in Lean.

Modelling conventions:
* Engine time stamps (Python floats, seconds) are rationals `ℚ`.
* Raw audio bytes are `List Nat` (each entry one byte).
* The external recognition engine (`online_asr_proc`) is an oracle:
  `engine : List Int → Segment` maps the submitted int16 samples to the
  `(start, end, text)` tuple returned by `process_iter`; `finish_result`
  stands for the tuple returned by `online_asr_proc.finish()`.
* The external translation service (`SimpleTranslator.translate`) is an
  oracle `TranslateSvc`; a `none` result models any failure (timeout,
  bad response, exception) — the source catches them all and returns None.
-/

/-- Helper for `strip`: remove leading whitespace characters from a list. -/
def dropWS : List Char → List Char
  | [] => []
  | c :: cs => if c.isWhitespace then dropWS cs else c :: cs

/-- Model of Python `str.strip()`: remove leading and trailing whitespace.
(Implemented over the character list so that it evaluates by `decide`.) -/
def strip (s : String) : String :=
  String.mk (dropWS (dropWS s.data.reverse).reverse)

/-- Engine output tuple `o = (start_time, end_time, text)` as returned by
`process_iter` / `finish`. A `none` time marks an incomplete result. -/
structure Segment where
  startSec : Option ℚ
  endSec : Option ℚ
  text : String
deriving DecidableEq, Repr

/-- Client-visible transcription payload built by `format_result`:
the `text`, `start`, `end`, `isFinal` fields of the JSON object
(times in milliseconds). -/
structure TranscriptionEvent where
  text : String
  start_ms : ℚ
  end_ms : ℚ
  isFinal : Bool
deriving DecidableEq, Repr

/-- Start clamping of `format_result`: `beg = max(beg, self.last_end)`
when `self.last_end is not None`, else `beg` unchanged. -/
def clampedStart (last_end : Option ℚ) (beg : ℚ) : ℚ :=
  match last_end with
  | some le => max beg le
  | none => beg

/-- `WhisperWebSocketProcessor.format_result` (lines 187-216): turns one
engine tuple into an optional transcription event.  The first component is
the updated `self.last_end`. Empty / whitespace-only text yields no event;
both times present yields a final event with the start clamped up to the
stored last end and `last_end := end*1000`; a missing time yields a
partial event with zero times and `last_end` untouched. -/
def format_result (last_end : Option ℚ) (o : Segment) :
    Option ℚ × Option TranscriptionEvent :=
  if strip o.text ≠ "" then
    match o.startSec, o.endSec with
    | some s, some e =>
      (some (e * 1000),
       some ⟨strip o.text, clampedStart last_end (s * 1000), e * 1000, true⟩)
    | some _, none => (last_end, some ⟨strip o.text, 0, 0, false⟩)
    | none, some _ => (last_end, some ⟨strip o.text, 0, 0, false⟩)
    | none, none => (last_end, some ⟨strip o.text, 0, 0, false⟩)
  else (last_end, none)

/-- Run `format_result` over the sequence of engine tuples of a session,
threading `last_end` and collecting the emitted events in order. -/
def runSegments (last_end : Option ℚ) : List Segment → Option ℚ × List TranscriptionEvent
  | [] => (last_end, [])
  | o :: rest =>
    let fr := format_result last_end o
    let r2 := runSegments fr.1 rest
    (r2.1, fr.2.toList ++ r2.2)

/-- Events a session emits from a sequence of engine tuples. -/
def sessEvents (last_end : Option ℚ) (segs : List Segment) : List TranscriptionEvent :=
  (runSegments last_end segs).2

/-- The final (`isFinal = true`) events of an event sequence. -/
def finals (evs : List TranscriptionEvent) : List TranscriptionEvent :=
  evs.filter (·.isFinal)

/-- Per-connection state of `WhisperWebSocketProcessor`.  `asr_generation`
counts the calls to `create_asr_processor`, i.e. how often the recognition
adapter has been (re-)created; `__init__` calls it once. -/
@[ext]
structure Processor where
  min_buffer_size : Nat
  enable_translation : Bool
  last_end : Option ℚ
  audio_buffer : List (List Nat)
  buffer_size : Nat
  source_language : String
  target_language : String
  asr_generation : Nat
deriving DecidableEq, Repr

/-- `WhisperWebSocketProcessor.__init__` (lines 111-124):
`min_buffer_size = int(min_chunk * SAMPLING_RATE * 2)` with
`SAMPLING_RATE = 16000` (`int` truncation = floor for the positive
configuration values), languages default to `en` / `fr`, and
`create_asr_processor` runs once. -/
def Processor.init (min_chunk : ℚ) (enable_translation : Bool) : Processor :=
  { min_buffer_size := (Int.floor (min_chunk * 16000 * 2)).toNat
    enable_translation := enable_translation
    last_end := none
    audio_buffer := []
    buffer_size := 0
    source_language := "en"
    target_language := "fr"
    asr_generation := 1 }

/-- `create_asr_processor` (lines 126-134): recreates the recognition
adapter for the current source language; modelled by bumping
`asr_generation`. -/
def create_asr_processor (p : Processor) : Processor :=
  { p with asr_generation := p.asr_generation + 1 }

/-- Return value of `update_languages`. -/
inductive LangChange
  | source_changed
  | target_changed
  | no_change
deriving DecidableEq, Repr

/-- `WhisperWebSocketProcessor.update_languages` (lines 136-151): stores
both languages, then recreates the ASR processor iff the source changed. -/
def update_languages (p : Processor) (source_lang target_lang : String) :
    Processor × LangChange :=
  let old_source := p.source_language
  let old_target := p.target_language
  let p1 := { p with source_language := source_lang, target_language := target_lang }
  if old_source ≠ source_lang then
    (create_asr_processor p1, .source_changed)
  else if old_target ≠ target_lang then
    (p1, .target_changed)
  else
    (p1, .no_change)

/-- `add_audio_chunk` (lines 153-156): append the frame and grow the count. -/
def add_audio_chunk (p : Processor) (audio_bytes : List Nat) : Processor :=
  { p with audio_buffer := p.audio_buffer ++ [audio_bytes]
           buffer_size := p.buffer_size + audio_bytes.length }

/-- Buffer half of `process_audio` (lines 158-166): below the threshold
return `none` and leave the state untouched; otherwise hand off the joined
buffer contents and clear buffer and count. -/
def drain_if_ready (p : Processor) : Processor × Option (List Nat) :=
  if p.buffer_size < p.min_buffer_size then (p, none)
  else ({ p with audio_buffer := [], buffer_size := 0 },
        some p.audio_buffer.flatten)

/-- Little-endian int16 decoding of `np.frombuffer(b, dtype=np.int16)`:
`none` models the `ValueError` raised on an odd byte count. -/
def int16OfBytes : List Nat → Option (List Int)
  | [] => some []
  | [_] => none
  | lo :: hi :: rest =>
    (int16OfBytes rest).map fun tail =>
      (if lo % 256 + 256 * (hi % 256) < 32768 then
        ((lo % 256 + 256 * (hi % 256) : Nat) : Int)
      else ((lo % 256 + 256 * (hi % 256) : Nat) : Int) - 65536) :: tail

/-- `WhisperWebSocketProcessor.process_audio` (lines 158-185): drain the
buffer when full, decode the bytes, submit to the engine and format the
result.  The `try`/`except` catches every exception (in particular the
odd-byte `ValueError`) and returns `None`; the buffer was already cleared
before the `try` block. -/
def process_audio (engine : List Int → Segment) (p : Processor) :
    Processor × Option TranscriptionEvent :=
  match drain_if_ready p with
  | (p1, none) => (p1, none)
  | (p1, some combined_audio) =>
    match int16OfBytes combined_audio with
    | none => (p1, none)
    | some samples =>
      let fr := format_result p1.last_end (engine samples)
      ({ p1 with last_end := fr.1 }, fr.2)

/-- `WhisperWebSocketProcessor.finish` (lines 239-242): flush the trailing
engine tuple (abstracted as `finish_result`) through `format_result`
(which updates `last_end`). -/
def Processor.finish (p : Processor) (finish_result : Segment) :
    Processor × Option TranscriptionEvent :=
  let fr := format_result p.last_end finish_result
  ({ p with last_end := fr.1 }, fr.2)

/-- `WhisperWebSocketProcessor.reset` (lines 244-249): clear the stitcher
state and the audio buffer (`online_asr_proc.init()` only touches
engine-internal state). -/
def Processor.reset (p : Processor) : Processor :=
  { p with last_end := none, audio_buffer := [], buffer_size := 0 }

/-- Session state right after `handle_client` accepts a connection
(lines 254-256): a fresh processor followed by `reset`. -/
def connect (min_chunk : ℚ) (enable_translation : Bool) : Processor :=
  (Processor.init min_chunk enable_translation).reset

/-- External translation service oracle (`SimpleTranslator.translate`):
arguments text, src, dest; `none` is any failure. -/
abbrev TranslateSvc := String → String → String → Option String

/-- `WhisperWebSocketProcessor.translate_text` (lines 218-237).
`translator_available` models the module-level `translator` global being
non-None (translation library present and initialised). -/
def translate_text (translator_available : Bool) (svc : TranslateSvc)
    (p : Processor) (text : String) : Option String :=
  if ¬ p.enable_translation ∨ ¬ translator_available then none
  else if p.source_language = p.target_language then some text
  else
    svc text (if p.source_language = "auto" then "auto" else p.source_language)
      p.target_language

/-- Outbound server message (`type` field of the JSON objects sent by
`handle_client`).  `translation` carries the hard-coded `isFinal: True`. -/
inductive ServerMsg
  | status (message : String)
  | transcription (ev : TranscriptionEvent)
  | translation (text : String) (start_ms end_ms : ℚ) (isFinal : Bool)
      (sourceLanguage targetLanguage : String)
  | error (message : String)
  | languageChangeRestart (sourceLanguage targetLanguage : String)
  | targetLanguageChanged (targetLanguage : String)
deriving DecidableEq, Repr

/-- Whether a server message is an `error` event. -/
def ServerMsg.isError : ServerMsg → Bool
  | .error _ => true
  | _ => false

/-- Whether a server message is a `transcription` event. -/
def ServerMsg.isTranscription : ServerMsg → Bool
  | .transcription _ => true
  | _ => false

/-- Translation block of the binary-frame branch of `handle_client`
(lines 276-289): runs only when translation is enabled, the result is
final and its text non-empty; by Python truthiness an empty translated
string is also dropped. -/
def binaryTranslationEvent (translator_available : Bool) (svc : TranslateSvc)
    (p : Processor) (result : TranscriptionEvent) : Option ServerMsg :=
  if p.enable_translation ∧ result.isFinal = true ∧ result.text ≠ "" then
    match translate_text translator_available svc p result.text with
    | some tr =>
      if tr = "" then none
      else some (.translation tr result.start_ms result.end_ms true
        p.source_language p.target_language)
    | none => none
  else none

/-- Translation block of the stop branch of `handle_client`
(lines 310-322): identical except that it does not test `isFinal`. -/
def stopTranslationEvent (translator_available : Bool) (svc : TranslateSvc)
    (p : Processor) (result : TranscriptionEvent) : Option ServerMsg :=
  if p.enable_translation ∧ result.text ≠ "" then
    match translate_text translator_available svc p result.text with
    | some tr =>
      if tr = "" then none
      else some (.translation tr result.start_ms result.end_ms true
        p.source_language p.target_language)
    | none => none
  else none

/-- The fixed supported-source-language table `WHISPER_LANGUAGES`
(lines 88-95, the keys). -/
def WHISPER_LANGUAGES : List String :=
  ["auto",
   "en", "es", "fr", "de", "it", "pt",
   "ja", "ko", "zh", "ar", "ru", "hi",
   "nl", "pl", "tr", "sv", "da", "no",
   "fi", "cs", "sk", "hu", "ro", "bg",
   "hr", "sl", "et", "lv", "lt", "uk"]

/-- Inbound client message: a binary audio frame or one of the JSON
control messages.  For `setLanguages`, `none` models a missing
`sourceLanguage` / `targetLanguage` field. -/
inductive ClientMsg
  | binary (chunk : List Nat)
  | start
  | stop
  | setLanguages (sourceLanguage? targetLanguage? : Option String)
deriving DecidableEq, Repr

/-- One iteration of the `async for` message loop of `handle_client`
(lines 264-361).  Returns the new processor state, the list of messages
sent to the client, and — for bookkeeping — the drained byte block handed
towards the engine (`none` when the threshold was not reached). -/
def handle_message (translator_available : Bool) (svc : TranslateSvc)
    (engine : List Int → Segment) (finish_result : Segment)
    (p : Processor) : ClientMsg → Processor × List ServerMsg × Option (List Nat)
  | .binary chunk =>
    let p1 := add_audio_chunk p chunk
    let dr := drain_if_ready p1
    let pr := process_audio engine p1
    match pr.2 with
    | none => (pr.1, [], dr.2)
    | some result =>
      match binaryTranslationEvent translator_available svc pr.1 result with
      | some m => (pr.1, [.transcription result, m], dr.2)
      | none => (pr.1, [.transcription result], dr.2)
  | .start =>
    (p.reset, [.status "Started transcription"], none)
  | .stop =>
    let fin := p.finish finish_result
    match fin.2 with
    | none => (fin.1, [.status "Stopped transcription"], none)
    | some result =>
      match stopTranslationEvent translator_available svc fin.1 result with
      | some m =>
        (fin.1, [.transcription result, m, .status "Stopped transcription"], none)
      | none =>
        (fin.1, [.transcription result, .status "Stopped transcription"], none)
  | .setLanguages src? tgt? =>
    let source_lang := src?.getD "en"
    let target_lang := tgt?.getD "fr"
    if source_lang ∉ WHISPER_LANGUAGES then
      (p, [.error ("Unsupported source language: " ++ source_lang)], none)
    else
      match update_languages p source_lang target_lang with
      | (p1, .source_changed) =>
        (p1, [.languageChangeRestart source_lang target_lang], none)
      | (p1, .target_changed) =>
        (p1, [.targetLanguageChanged target_lang], none)
      | (p1, .no_change) =>
        (p1, [.status ("Languages updated: " ++ source_lang ++ " to " ++ target_lang)],
         none)

/-- Run a whole inbound message trace through `handle_message`, collecting
per-message outputs (messages sent, submission made). -/
def runSession (translator_available : Bool) (svc : TranslateSvc)
    (engine : List Int → Segment) (finish_result : Segment) :
    Processor → List ClientMsg → Processor × List (List ServerMsg × Option (List Nat))
  | p, [] => (p, [])
  | p, m :: ms =>
    let st := handle_message translator_available svc engine finish_result p m
    let r2 := runSession translator_available svc engine finish_result st.1 ms
    (r2.1, st.2 :: r2.2)

/-- One binary-frame buffer step: `add_audio_chunk` followed by the drain
half of `process_audio`. -/
def ingest (p : Processor) (chunk : List Nat) : Processor × Option (List Nat) :=
  drain_if_ready (add_audio_chunk p chunk)

/-- Run `ingest` over a list of frames, collecting each drain result. -/
def ingestRun : Processor → List (List Nat) → Processor × List (Option (List Nat))
  | p, [] => (p, [])
  | p, c :: cs =>
    let st := ingest p c
    let r2 := ingestRun st.1 cs
    (r2.1, st.2 :: r2.2)

/-- The end time (seconds) of an engine tuple that yields a final event:
text survives stripping and both times are present. -/
def finalEndOf (o : Segment) : Option ℚ :=
  if strip o.text ≠ "" then
    match o.startSec, o.endSec with
    | some _, some e => some e
    | _, _ => none
  else none

/-- Representation invariant relating `buffer_size` to `audio_buffer`. -/
def sizeInv (p : Processor) : Prop :=
  p.buffer_size = (p.audio_buffer.map List.length).sum

/-- Unfolding lemma for `runSegments` on a cons cell. -/
lemma runSegments_cons (le : Option ℚ) (o : Segment) (rest : List Segment) :
    runSegments le (o :: rest) =
      ((runSegments (format_result le o).1 rest).1,
       (format_result le o).2.toList ++ (runSegments (format_result le o).1 rest).2) := rfl

/-- Unfolding lemma for `sessEvents` on a cons cell. -/
lemma sessEvents_cons (le : Option ℚ) (o : Segment) (rest : List Segment) :
    sessEvents le (o :: rest) =
      (format_result le o).2.toList ++ sessEvents (format_result le o).1 rest := rfl

/-- Final events of a cons beginning with a final event. -/
lemma finals_cons_of_final (ev : TranscriptionEvent) (l : List TranscriptionEvent)
    (h : ev.isFinal = true) : finals (ev :: l) = ev :: finals l := by
  simp [finals, List.filter_cons, h]

/-- Final events of a cons beginning with a non-final event. -/
lemma finals_cons_of_not_final (ev : TranscriptionEvent) (l : List TranscriptionEvent)
    (h : ev.isFinal = false) : finals (ev :: l) = finals l := by
  simp [finals, List.filter_cons, h]

/-- Case of `format_result`: text empty after stripping, no event. -/
lemma format_result_skip (le : Option ℚ) (o : Segment) (h : strip o.text = "") :
    format_result le o = (le, none) := by
  simp [format_result, h]

/-- Case of `format_result`: a time is missing, partial event, `last_end` kept. -/
lemma format_result_noTimes (le : Option ℚ) (o : Segment) (h : strip o.text ≠ "")
    (h2 : o.startSec = none ∨ o.endSec = none) :
    format_result le o = (le, some ⟨strip o.text, 0, 0, false⟩) := by
  rcases h2 with h2 | h2 <;>
    rcases hs : o.startSec with _ | s <;> rcases he : o.endSec with _ | e <;>
    simp_all [format_result]

/-- Case of `format_result`: both times present, final event with clamped start. -/
lemma format_result_final (le : Option ℚ) (o : Segment) (s e : ℚ)
    (h : strip o.text ≠ "") (hs : o.startSec = some s) (he : o.endSec = some e) :
    format_result le o =
      (some (e * 1000),
       some ⟨strip o.text, clampedStart le (s * 1000), e * 1000, true⟩) := by
  simp [format_result, h, hs, he]

/-- The stored `last_end` after a run, phrased from the emitted finals. -/
def lastEndAfter (le : Option ℚ) (l : List TranscriptionEvent) : Option ℚ :=
  match l.getLast? with
  | some f => some f.end_ms
  | none => le

/-- Invariant of the stitcher: the final events are chained
(`end_ms` of each at most `start_ms` of the next), their first start is at
least any stored `last_end`, and the stored `last_end` after the run is
the end of the last final event. -/
lemma stitcher_invariant (segs : List Segment) : ∀ (le : Option ℚ),
    List.Chain' (fun a b => a.end_ms ≤ b.start_ms) (finals (sessEvents le segs)) ∧
    (∀ x : ℚ, le = some x → ∀ f ∈ (finals (sessEvents le segs)).head?, x ≤ f.start_ms) ∧
    (runSegments le segs).1 = lastEndAfter le (finals (sessEvents le segs)) := by
  induction segs with
  | nil =>
    intro le
    simp [sessEvents, runSegments, finals, lastEndAfter]
  | cons o rest ih =>
    intro le
    by_cases hst : strip o.text = ""
    · have he := format_result_skip le o hst
      simpa [sessEvents_cons, runSegments_cons, he] using ih le
    · rcases hs : o.startSec with _ | s
      · have he2 := format_result_noTimes le o hst (Or.inl hs)
        simpa [sessEvents_cons, runSegments_cons, he2,
          finals_cons_of_not_final ⟨strip o.text, 0, 0, false⟩ _ rfl] using ih le
      · rcases he : o.endSec with _ | e
        · have he2 := format_result_noTimes le o hst (Or.inr he)
          simpa [sessEvents_cons, runSegments_cons, he2,
            finals_cons_of_not_final ⟨strip o.text, 0, 0, false⟩ _ rfl] using ih le
        · have hf := format_result_final le o s e hst hs he
          have ihe := ih (some (e * 1000))
          have hev : sessEvents le (o :: rest) =
              ⟨strip o.text, clampedStart le (s * 1000), e * 1000, true⟩ ::
                sessEvents (some (e * 1000)) rest := by
            rw [sessEvents_cons, hf]; rfl
          have hfin : finals (sessEvents le (o :: rest)) =
              ⟨strip o.text, clampedStart le (s * 1000), e * 1000, true⟩ ::
                finals (sessEvents (some (e * 1000)) rest) := by
            rw [hev, finals_cons_of_final _ _ rfl]
          refine ⟨?_, ?_, ?_⟩
          · rw [hfin, List.chain'_cons']
            refine ⟨fun y hy => ihe.2.1 (e * 1000) rfl y hy, ihe.1⟩
          · intro x hx f hf2
            rw [hfin] at hf2
            simp only [List.head?_cons, Option.mem_def, Option.some.injEq] at hf2
            subst hf2
            simp [hx, clampedStart]
          · have hrun : (runSegments le (o :: rest)).1 =
                (runSegments (some (e * 1000)) rest).1 := by
              rw [runSegments_cons, hf]
            rw [hrun, ihe.2.2, hfin]
            rcases hrest : finals (sessEvents (some (e * 1000)) rest) with _ | ⟨b, t⟩
            · simp [lastEndAfter]
            · simp only [lastEndAfter]
              rcases hgl : (b :: t).getLast? with _ | f
              · simp at hgl
              · simp only [List.getLast?_cons_cons, hgl]

/-- The end times of the emitted final events are exactly the end times of
the qualifying engine tuples, scaled to milliseconds. -/
lemma finals_end_map (segs : List Segment) : ∀ (le : Option ℚ),
    (finals (sessEvents le segs)).map (·.end_ms) =
      (segs.filterMap finalEndOf).map (· * 1000) := by
  induction segs with
  | nil =>
    intro le
    simp [sessEvents, runSegments, finals]
  | cons o rest ih =>
    intro le
    by_cases hst : strip o.text = ""
    · have he := format_result_skip le o hst
      have hfe : finalEndOf o = none := by simp [finalEndOf, hst]
      simpa [sessEvents_cons, he, List.filterMap_cons, hfe] using ih le
    · rcases hs : o.startSec with _ | s
      · have he2 := format_result_noTimes le o hst (Or.inl hs)
        have hfe : finalEndOf o = none := by simp [finalEndOf, hst, hs]
        simpa [sessEvents_cons, he2, List.filterMap_cons, hfe,
          finals_cons_of_not_final ⟨strip o.text, 0, 0, false⟩ _ rfl] using ih le
      · rcases he : o.endSec with _ | e
        · have he2 := format_result_noTimes le o hst (Or.inr he)
          have hfe : finalEndOf o = none := by simp [finalEndOf, hst, hs, he]
          simpa [sessEvents_cons, he2, List.filterMap_cons, hfe,
            finals_cons_of_not_final ⟨strip o.text, 0, 0, false⟩ _ rfl] using ih le
        · have hf := format_result_final le o s e hst hs he
          have hfe : finalEndOf o = some e := by simp [finalEndOf, hst, hs, he]
          have hev : sessEvents le (o :: rest) =
              ⟨strip o.text, clampedStart le (s * 1000), e * 1000, true⟩ ::
                sessEvents (some (e * 1000)) rest := by
            rw [sessEvents_cons, hf]; rfl
          rw [hev, finals_cons_of_final _ _ rfl, List.map_cons,
            List.filterMap_cons, hfe, List.map_cons, ih (some (e * 1000))]

/-- C1 exactly as stated: in every session, across the final transcription
events, the `end_ms` values are non-decreasing — for every sequence of
engine outputs. -/
def endMonotoneClaim : Prop :=
  ∀ segs : List Segment,
    List.Chain' (fun a b => a.end_ms ≤ b.end_ms) (finals (sessEvents none segs))

/-- C1 counterexample: engine tuples `(0, 2, "a")` then `(0, 1, "b")` give
final events with `end_ms` 2000 then 1000: `format_result` clamps only the
start, never the end, so `end_ms` can decrease. -/
theorem end_ms_not_monotone : ¬ endMonotoneClaim := by
  intro h
  have h2 := h [⟨some 0, some 2, "a"⟩, ⟨some 0, some 1, "b"⟩]
  have he : finals (sessEvents none [⟨some 0, some 2, "a"⟩, ⟨some 0, some 1, "b"⟩]) =
      [⟨strip "a", clampedStart none (0 * 1000), 2 * 1000, true⟩,
       ⟨strip "b", clampedStart (some (2 * 1000)) (0 * 1000), 1 * 1000, true⟩] := rfl
  rw [he, List.chain'_cons] at h2
  have h3 := h2.1
  simp only at h3
  norm_num at h3

/-- C1 (amended): the code clamps only start times, so the `end_ms`
sequence of the final events is non-decreasing provided the qualifying
engine tuples (both times present, text surviving `strip`) arrive with
non-decreasing end times; without that hypothesis `end_ms` can decrease
(see the counterexample). -/
theorem end_ms_monotone_of_engine_monotone (segs : List Segment) (le : Option ℚ)
    (h : List.Chain' (· ≤ ·) (segs.filterMap finalEndOf)) :
    List.Chain' (fun a b => a.end_ms ≤ b.end_ms) (finals (sessEvents le segs)) := by
  have h2 : List.Chain' (· ≤ ·) ((finals (sessEvents le segs)).map (·.end_ms)) := by
    rw [finals_end_map segs le, List.chain'_map]
    exact h.imp fun a b hab => mul_le_mul_of_nonneg_right hab (by norm_num)
  rw [List.chain'_map] at h2
  exact h2

/-- Witness for the amended C1 at the example run from the spec:
`(2.0, 3.5, "hello")` then `(3.2, 4.0, "world")`. -/
theorem end_ms_monotone_of_engine_monotone_witness :
    List.Chain' (· ≤ ·)
      (([⟨some 2, some (7/2), "hello"⟩, ⟨some (16/5), some 4, "world"⟩] :
          List Segment).filterMap finalEndOf) ∧
    List.Chain' (fun a b => a.end_ms ≤ b.end_ms)
      (finals (sessEvents none
        [⟨some 2, some (7/2), "hello"⟩, ⟨some (16/5), some 4, "world"⟩])) := by
  have hyp : List.Chain' (· ≤ ·)
      (([⟨some 2, some (7/2), "hello"⟩, ⟨some (16/5), some 4, "world"⟩] :
          List Segment).filterMap finalEndOf) := by
    have he : ([⟨some 2, some (7/2), "hello"⟩, ⟨some (16/5), some 4, "world"⟩] :
        List Segment).filterMap finalEndOf = [7/2, 4] := rfl
    rw [he, List.chain'_cons]
    exact ⟨by norm_num, by simp⟩
  exact ⟨hyp, end_ms_monotone_of_engine_monotone _ none hyp⟩

/-- C2: a tuple with both times present and text surviving `strip` yields a
final event whose start is `start*1000` clamped up to the stored last end
(`start*1000` itself when none is stored), whose end is `end*1000`, and the
stored last end becomes `end*1000`; consequently in every session run each
final event has `end_ms` at most the `start_ms` of the next final event. -/
theorem stitcher_final_clamp (le : Option ℚ) (o : Segment) (s e : ℚ)
    (h : strip o.text ≠ "") (hs : o.startSec = some s) (he : o.endSec = some e) :
    format_result le o =
      (some (e * 1000),
       some ⟨strip o.text, clampedStart le (s * 1000), e * 1000, true⟩) ∧
    (∀ x, le = some x → clampedStart le (s * 1000) = max (s * 1000) x) ∧
    (le = none → clampedStart le (s * 1000) = s * 1000) ∧
    ∀ (segs : List Segment) (le₀ : Option ℚ),
      List.Chain' (fun a b => a.end_ms ≤ b.start_ms) (finals (sessEvents le₀ segs)) := by
  refine ⟨format_result_final le o s e h hs he, ?_, ?_, ?_⟩
  · intro x hx; subst hx; rfl
  · intro hx; subst hx; rfl
  · intro segs le₀; exact (stitcher_invariant segs le₀).1

/-- Witness for C2 at the example from the spec: second segment
`(3.2, 4.0, "world")` arriving with stored last end 3500. -/
theorem stitcher_final_clamp_witness :
    strip "world" ≠ "" ∧
    (format_result (some 3500) ⟨some (16/5), some 4, "world"⟩ =
      (some ((4:ℚ) * 1000),
       some ⟨strip "world", clampedStart (some 3500) ((16/5 : ℚ) * 1000),
         (4:ℚ) * 1000, true⟩) ∧
    (∀ x, (some 3500 : Option ℚ) = some x →
      clampedStart (some 3500) ((16/5 : ℚ) * 1000) = max ((16/5 : ℚ) * 1000) x) ∧
    ((some 3500 : Option ℚ) = none →
      clampedStart (some 3500) ((16/5 : ℚ) * 1000) = (16/5 : ℚ) * 1000) ∧
    ∀ (segs : List Segment) (le₀ : Option ℚ),
      List.Chain' (fun a b => a.end_ms ≤ b.start_ms) (finals (sessEvents le₀ segs))) :=
  ⟨by decide,
   stitcher_final_clamp (some 3500) ⟨some (16/5), some 4, "world"⟩ (16/5) 4
     (by decide) rfl rfl⟩

/-- Below the threshold, a run of `ingest` steps drains nothing and only
accumulates the frames in order. -/
lemma ingestRun_below (pre : List (List Nat)) : ∀ (p : Processor),
    p.buffer_size + (pre.map List.length).sum < p.min_buffer_size →
    ingestRun p pre =
      ({ p with audio_buffer := p.audio_buffer ++ pre,
                buffer_size := p.buffer_size + (pre.map List.length).sum },
       pre.map fun _ => none) := by
  induction pre with
  | nil =>
    intro p _
    simp [ingestRun]
  | cons c cs ih =>
    intro p h
    have hlt : (add_audio_chunk p c).buffer_size < (add_audio_chunk p c).min_buffer_size := by
      simp only [add_audio_chunk, List.map_cons, List.sum_cons] at h ⊢
      omega
    have hdrain : ingest p c = (add_audio_chunk p c, none) := by
      simp [ingest, drain_if_ready, hlt]
    have hih := ih (add_audio_chunk p c) (by
      simp only [add_audio_chunk, List.map_cons, List.sum_cons] at h ⊢
      omega)
    simp only [ingestRun, hdrain, hih]
    rw [Prod.ext_iff]
    refine ⟨?_, by simp⟩
    ext <;> simp [add_audio_chunk, Nat.add_assoc]

/-- C3: starting from an empty buffer, while the cumulative byte count of
the frames stays strictly below `min_buffer_size` every drain returns
`none` and the buffer keeps accumulating untouched (and `process_audio`
emits no event below the threshold); the frame that brings the count to
the threshold triggers exactly one hand-off of all buffered bytes combined
and resets the buffer and count to empty and zero. -/
theorem buffer_threshold_behavior (p₀ : Processor) (pre : List (List Nat)) (c : List Nat)
    (hbuf : p₀.audio_buffer = []) (hsize : p₀.buffer_size = 0)
    (hlt : (pre.map List.length).sum < p₀.min_buffer_size)
    (hge : p₀.min_buffer_size ≤ (pre.map List.length).sum + c.length) :
    ingestRun p₀ pre =
      ({ p₀ with audio_buffer := pre, buffer_size := (pre.map List.length).sum },
       pre.map fun _ => none) ∧
    (∀ (engine : List Int → Segment) (q : Processor),
      q.buffer_size < q.min_buffer_size → process_audio engine q = (q, none)) ∧
    ingest (ingestRun p₀ pre).1 c =
      ({ p₀ with audio_buffer := [], buffer_size := 0 }, some (pre.flatten ++ c)) := by
  have hrun := ingestRun_below pre p₀ (by omega)
  refine ⟨by rw [hrun]; simp [hbuf, hsize], ?_, ?_⟩
  · intro engine q hq
    simp [process_audio, drain_if_ready, hq]
  · rw [hrun]
    have hsum : ¬ ((0 + (pre.map List.length).sum) + c.length < p₀.min_buffer_size) := by
      omega
    simp only [ingest, add_audio_chunk, drain_if_ready, hbuf, hsize, List.nil_append]
    rw [if_neg (by simpa using hsum)]
    simp

/-- Witness for C3 at the example from the spec: threshold 9600 bytes
(min_chunk 0.3 s), frames of 5000 and 5000 bytes. -/
theorem buffer_threshold_behavior_witness :
    (Processor.init (3/10) false).audio_buffer = [] ∧
    (Processor.init (3/10) false).buffer_size = 0 ∧
    (([List.replicate 5000 0].map List.length).sum <
      (Processor.init (3/10) false).min_buffer_size) ∧
    ((Processor.init (3/10) false).min_buffer_size ≤
      ([List.replicate 5000 0].map List.length).sum +
        (List.replicate 5000 0 : List Nat).length) ∧
    (ingestRun (Processor.init (3/10) false) [List.replicate 5000 0] =
      ({ Processor.init (3/10) false with
          audio_buffer := [List.replicate 5000 0],
          buffer_size := ([List.replicate 5000 0].map List.length).sum },
       [List.replicate 5000 0].map fun _ => none) ∧
    (∀ (engine : List Int → Segment) (q : Processor),
      q.buffer_size < q.min_buffer_size → process_audio engine q = (q, none)) ∧
    ingest (ingestRun (Processor.init (3/10) false) [List.replicate 5000 0]).1
        (List.replicate 5000 0) =
      ({ Processor.init (3/10) false with audio_buffer := [], buffer_size := 0 },
       some (([List.replicate 5000 0] : List (List Nat)).flatten ++
         List.replicate 5000 0))) := by
  have hth : (Processor.init (3/10) false).min_buffer_size = 9600 := by
    show ((Int.floor ((3:ℚ)/10 * 16000 * 2)).toNat) = 9600
    have h9 : (Int.floor ((3:ℚ)/10 * 16000 * 2)) = 9600 := by norm_num
    rw [h9]; rfl
  have h1 : (Processor.init (3/10) false).audio_buffer = [] := rfl
  have h2 : (Processor.init (3/10) false).buffer_size = 0 := rfl
  have h3 : (([List.replicate 5000 (0:Nat)].map List.length).sum <
      (Processor.init (3/10) false).min_buffer_size) := by
    rw [hth]
    simp only [List.map_cons, List.map_nil, List.sum_cons, List.sum_nil,
      List.length_replicate]
    norm_num
  have h4 : ((Processor.init (3/10) false).min_buffer_size ≤
      ([List.replicate 5000 (0:Nat)].map List.length).sum +
        (List.replicate 5000 0 : List Nat).length) := by
    rw [hth]
    simp only [List.map_cons, List.map_nil, List.sum_cons, List.sum_nil,
      List.length_replicate]
    norm_num
  exact ⟨h1, h2, h3, h4,
    buffer_threshold_behavior (Processor.init (3/10) false)
      [List.replicate 5000 0] (List.replicate 5000 0) h1 h2 h3 h4⟩

/-- C10: the representation invariant `buffer_size` equals the total byte
length of the buffered chunks holds after construction and is preserved by
`add_audio_chunk`, by `process_audio` (which either leaves both fields
alone or resets both together), and by `reset`. -/
theorem buffer_size_invariant :
    (∀ (mc : ℚ) (e : Bool), sizeInv (Processor.init mc e)) ∧
    (∀ (p : Processor) (c : List Nat), sizeInv p → sizeInv (add_audio_chunk p c)) ∧
    (∀ (p : Processor) (engine : List Int → Segment),
      sizeInv p → sizeInv (process_audio engine p).1) ∧
    (∀ p : Processor, sizeInv (Processor.reset p)) := by
  refine ⟨?_, ?_, ?_, ?_⟩
  · intro mc e; simp [sizeInv, Processor.init]
  · intro p c hp
    simp only [sizeInv, add_audio_chunk] at hp ⊢
    simp [hp]
  · intro p engine hp
    by_cases hq : p.buffer_size < p.min_buffer_size
    · simpa [process_audio, drain_if_ready, hq] using hp
    · rcases hconv : int16OfBytes p.audio_buffer.flatten with _ | samples <;>
        simp [process_audio, drain_if_ready, hq, hconv, sizeInv]
  · intro p; simp [sizeInv, Processor.reset]

/-- Witness for C10: the invariant holds after adding a frame to a fresh
processor. -/
theorem buffer_size_invariant_witness :
    sizeInv (add_audio_chunk (Processor.init 1 false) [0, 1, 2]) :=
  buffer_size_invariant.2.1 _ _ (buffer_size_invariant.1 1 false)

/-- An odd byte count makes the int16 decode fail (np.frombuffer raises). -/
lemma int16OfBytes_odd : ∀ l : List Nat, l.length % 2 = 1 → int16OfBytes l = none
  | [], h => by simp at h
  | [_], _ => rfl
  | a :: b :: rest, h => by
    have h2 : rest.length % 2 = 1 := by
      simp only [List.length_cons] at h
      omega
    simp [int16OfBytes, int16OfBytes_odd rest h2]

/-- C5 exactly as stated (instantiated to sessions that never receive a
"start" message, hence are never ACTIVE): binary frames are buffered but
never cause a drain hand-off towards the engine and never produce a
transcription event. -/
def idleNoSubmissionClaim : Prop :=
  ∀ (ta : Bool) (svc : TranslateSvc) (engine : List Int → Segment)
    (fr : Segment) (mc : ℚ) (msgs : List ClientMsg),
    (∀ m ∈ msgs, ∃ chunk, m = ClientMsg.binary chunk) →
    ∀ out ∈ (runSession ta svc engine fr (connect mc false) msgs).2,
      out.2 = none ∧ ∀ sm ∈ out.1, sm.isTranscription = false

/-- C5 counterexample: with threshold 2 bytes (min_chunk = 1/16000 s) a
single binary frame of two bytes, sent before any "start" message, is
drained and submitted, and with an engine returning `(0, 1, "hi")` a final
transcription event is sent. -/
theorem idle_frames_are_processed : ¬ idleNoSubmissionClaim := by
  intro h
  have h2 := h true (fun _ _ _ => none) (fun _ => ⟨some 0, some 1, "hi"⟩)
    ⟨none, none, ""⟩ (1/16000) [.binary [0, 0]]
    (by intro m hm; simp at hm; exact ⟨[0, 0], hm⟩)
  have hth : (connect (1/16000) false).min_buffer_size = 2 := by
    show ((Int.floor ((1:ℚ)/16000 * 16000 * 2)).toNat) = 2
    have h9 : (Int.floor ((1:ℚ)/16000 * 16000 * 2)) = 2 := by norm_num
    rw [h9]; rfl
  have hout : (runSession true (fun _ _ _ => none) (fun _ => ⟨some 0, some 1, "hi"⟩)
      ⟨none, none, ""⟩ (connect (1/16000) false) [.binary [0, 0]]).2 =
      [([.transcription ⟨strip "hi", clampedStart none (0 * 1000), 1 * 1000, true⟩],
        some [0, 0])] := by
    have hc : connect (1/16000) false =
        { min_buffer_size := 2, enable_translation := false, last_end := none,
          audio_buffer := [], buffer_size := 0, source_language := "en",
          target_language := "fr", asr_generation := 1 } := by
      ext <;> simp [hth, connect, Processor.init, Processor.reset]
    rw [hc]
    rfl
  rw [hout] at h2
  have h3 := h2 ([.transcription ⟨strip "hi", clampedStart none (0 * 1000), 1 * 1000, true⟩],
    some [0, 0]) (List.mem_singleton.mpr rfl)
  exact absurd h3.1 (by simp)

/-- C5 (amended): the handler keeps no session-activity state at all, so a
drain hand-off of a binary frame is determined purely by the buffer fill —
regardless of any preceding "start" or "stop" messages the combined bytes
are handed towards the engine exactly when the threshold is reached. -/
theorem binary_frames_ungated (ta : Bool) (svc : TranslateSvc)
    (engine : List Int → Segment) (fr : Segment) (p : Processor) (chunk : List Nat) :
    (handle_message ta svc engine fr p (.binary chunk)).2.2 =
      (if p.buffer_size + chunk.length < p.min_buffer_size then none
       else some ((p.audio_buffer ++ [chunk]).flatten)) := by
  have key : (handle_message ta svc engine fr p (.binary chunk)).2.2 =
      (drain_if_ready (add_audio_chunk p chunk)).2 := by
    simp only [handle_message]
    rcases hpr : (process_audio engine (add_audio_chunk p chunk)).2 with _ | r
    · simp [hpr]
    · rcases hbt : binaryTranslationEvent ta svc
          (process_audio engine (add_audio_chunk p chunk)).1 r with _ | m
      · simp [hpr, hbt]
      · simp [hpr, hbt]
  rw [key]
  by_cases hlt : p.buffer_size + chunk.length < p.min_buffer_size <;>
    simp [drain_if_ready, add_audio_chunk, hlt]

/-- C6 exactly as stated: whenever a binary frame drains an odd number of
buffered bytes towards the engine, the client receives an `error` event. -/
def oddByteErrorClaim : Prop :=
  ∀ (ta : Bool) (svc : TranslateSvc) (engine : List Int → Segment) (fr : Segment)
    (p : Processor) (chunk : List Nat),
    (handle_message ta svc engine fr p (.binary chunk)).2.2 ≠ none →
    ((p.audio_buffer ++ [chunk]).flatten.length) % 2 = 1 →
    ∃ m ∈ (handle_message ta svc engine fr p (.binary chunk)).2.1, m.isError = true

/-- C6 counterexample: threshold 3, one 3-byte frame: the drain happens,
`np.frombuffer` fails, the exception is caught inside `process_audio`, and
the client receives no message at all — in particular no `error` event. -/
theorem odd_bytes_no_error_event : ¬ oddByteErrorClaim := by
  intro h
  have hconc : (handle_message true (fun _ _ _ => none) (fun _ => ⟨none, none, ""⟩)
      ⟨none, none, ""⟩ ⟨3, false, none, [], 0, "en", "fr", 1⟩ (.binary [0, 0, 0])).2 =
      ([], some [0, 0, 0]) := rfl
  have h2 := h true (fun _ _ _ => none) (fun _ => ⟨none, none, ""⟩) ⟨none, none, ""⟩
    ⟨3, false, none, [], 0, "en", "fr", 1⟩ [0, 0, 0]
    (by rw [hconc]; simp) (by decide)
  rw [hconc] at h2
  simp at h2

/-- C6 (amended): an odd drained byte count makes the int16 decode fail
inside `process_audio`; the exception is caught there and `None` returned,
so the client gets no message (no `error` event), while the buffer was
already cleared and the rest of the session state is untouched — the
session remains usable but the failure is silent. -/
theorem odd_bytes_swallowed (ta : Bool) (svc : TranslateSvc)
    (engine : List Int → Segment) (fr : Segment) (p : Processor) (chunk : List Nat)
    (hge : p.min_buffer_size ≤ p.buffer_size + chunk.length)
    (hodd : ((p.audio_buffer ++ [chunk]).flatten.length) % 2 = 1) :
    handle_message ta svc engine fr p (.binary chunk) =
      ({ p with audio_buffer := [], buffer_size := 0 }, [],
       some ((p.audio_buffer ++ [chunk]).flatten)) := by
  have hnot : ¬ ((add_audio_chunk p chunk).buffer_size <
      (add_audio_chunk p chunk).min_buffer_size) := by
    simp only [add_audio_chunk]
    omega
  have hdrain : drain_if_ready (add_audio_chunk p chunk) =
      ({ p with audio_buffer := [], buffer_size := 0 },
       some ((p.audio_buffer ++ [chunk]).flatten)) := by
    rw [drain_if_ready, if_neg hnot]
    rfl
  have hproc : process_audio engine (add_audio_chunk p chunk) =
      ({ p with audio_buffer := [], buffer_size := 0 }, none) := by
    rw [process_audio, hdrain]
    simp only [int16OfBytes_odd _ hodd]
  simp [handle_message, hdrain, hproc]

/-- Witness for the amended C6: threshold 3, one 3-byte frame. -/
theorem odd_bytes_swallowed_witness :
    ((⟨3, false, none, [], 0, "en", "fr", 1⟩ : Processor).min_buffer_size ≤
      (⟨3, false, none, [], 0, "en", "fr", 1⟩ : Processor).buffer_size +
        ([0, 0, 0] : List Nat).length) ∧
    ((((⟨3, false, none, [], 0, "en", "fr", 1⟩ : Processor).audio_buffer ++
        [[0, 0, 0]]).flatten.length) % 2 = 1) ∧
    handle_message true (fun _ _ _ => none) (fun _ => ⟨none, none, ""⟩)
        ⟨none, none, ""⟩ ⟨3, false, none, [], 0, "en", "fr", 1⟩ (.binary [0, 0, 0]) =
      ({ (⟨3, false, none, [], 0, "en", "fr", 1⟩ : Processor) with
          audio_buffer := [], buffer_size := 0 }, [],
       some (((⟨3, false, none, [], 0, "en", "fr", 1⟩ : Processor).audio_buffer ++
         [[0, 0, 0]]).flatten)) :=
  ⟨by decide, by decide,
   odd_bytes_swallowed true (fun _ _ _ => none) (fun _ => ⟨none, none, ""⟩)
     ⟨none, none, ""⟩ ⟨3, false, none, [], 0, "en", "fr", 1⟩ [0, 0, 0]
     (by decide) (by decide)⟩

/-- C4 exactly as stated: a translation event is emitted only when
translation is enabled AND source differs from target AND the originating
transcription event is final — in both the binary-frame branch and the
stop branch. -/
def translationGatingClaim : Prop :=
  ∀ (ta : Bool) (svc : TranslateSvc) (p : Processor) (r : TranscriptionEvent)
    (m : ServerMsg),
    (binaryTranslationEvent ta svc p r = some m ∨
     stopTranslationEvent ta svc p r = some m) →
    p.enable_translation = true ∧ p.source_language ≠ p.target_language ∧
      r.isFinal = true

/-- C4 counterexample: with translation enabled and source = target = "fr",
`translate_text` short-circuits to the untranslated text, which is truthy,
so the binary branch emits a translation event even though source equals
target. -/
theorem translation_emitted_when_source_eq_target : ¬ translationGatingClaim := by
  intro h
  have hev : binaryTranslationEvent true (fun _ _ _ => none)
      ⟨9600, true, none, [], 0, "fr", "fr", 1⟩ ⟨"bonjour", 0, 0, true⟩ =
      some (.translation "bonjour" 0 0 true "fr" "fr") := rfl
  have h2 := h true (fun _ _ _ => none) ⟨9600, true, none, [], 0, "fr", "fr", 1⟩
    ⟨"bonjour", 0, 0, true⟩ (.translation "bonjour" 0 0 true "fr" "fr") (Or.inl hev)
  exact h2.2.1 rfl

/-- C4 (amended): a translation event is emitted only when translation is
enabled and the translator is initialised and the text is non-empty; the
binary-frame branch additionally requires a final transcription event, but
the stop branch omits the isFinal test and can emit for a partial one; and
when source equals target the untranslated text is emitted as the
translation instead of the event being suppressed. -/
theorem translation_gating (ta : Bool) (svc : TranslateSvc) (p : Processor)
    (r : TranscriptionEvent) :
    (∀ m, binaryTranslationEvent ta svc p r = some m →
      p.enable_translation = true ∧ ta = true ∧ r.isFinal = true ∧ r.text ≠ "") ∧
    (∀ m, stopTranslationEvent ta svc p r = some m →
      p.enable_translation = true ∧ ta = true ∧ r.text ≠ "") ∧
    (p.source_language = p.target_language → p.enable_translation = true →
      ta = true → r.isFinal = true → r.text ≠ "" →
      binaryTranslationEvent ta svc p r =
        some (.translation r.text r.start_ms r.end_ms true
          p.source_language p.target_language)) ∧
    (stopTranslationEvent true (fun _ _ _ => some "salut")
        ⟨9600, true, none, [], 0, "en", "fr", 1⟩ ⟨"hello", 0, 0, false⟩ =
      some (.translation "salut" 0 0 true "en" "fr")) := by
  refine ⟨?_, ?_, ?_, rfl⟩
  · intro m hm
    by_cases he : p.enable_translation = true ∧ r.isFinal = true ∧ r.text ≠ ""
    · refine ⟨he.1, ?_, he.2.1, he.2.2⟩
      by_cases hta : ta = true
      · exact hta
      · exfalso
        have hnone : translate_text ta svc p r.text = none := by
          simp [translate_text, Bool.not_eq_true ta ▸ hta]
        rw [binaryTranslationEvent, if_pos he, hnone] at hm
        exact absurd hm (by simp)
    · rw [binaryTranslationEvent, if_neg he] at hm
      exact absurd hm (by simp)
  · intro m hm
    by_cases he : p.enable_translation = true ∧ r.text ≠ ""
    · refine ⟨he.1, ?_, he.2⟩
      by_cases hta : ta = true
      · exact hta
      · exfalso
        have hnone : translate_text ta svc p r.text = none := by
          simp [translate_text, Bool.not_eq_true ta ▸ hta]
        rw [stopTranslationEvent, if_pos he, hnone] at hm
        exact absurd hm (by simp)
    · rw [stopTranslationEvent, if_neg he] at hm
      exact absurd hm (by simp)
  · intro hst hen hta hfin htext
    have htr : translate_text ta svc p r.text = some r.text := by
      simp [translate_text, hen, hta, hst]
    rw [binaryTranslationEvent, if_pos ⟨hen, hfin, htext⟩, htr]
    simp [htext]

/-- Witness for the amended C4, exercising the source-equals-target branch
at a concrete session. -/
theorem translation_gating_witness :
    ((⟨9600, true, none, [], 0, "fr", "fr", 1⟩ : Processor).source_language =
      (⟨9600, true, none, [], 0, "fr", "fr", 1⟩ : Processor).target_language) ∧
    binaryTranslationEvent true (fun _ _ _ => none)
        ⟨9600, true, none, [], 0, "fr", "fr", 1⟩ ⟨"bonjour", 0, 0, true⟩ =
      some (.translation (TranscriptionEvent.text ⟨"bonjour", 0, 0, true⟩)
        (TranscriptionEvent.start_ms ⟨"bonjour", 0, 0, true⟩)
        (TranscriptionEvent.end_ms ⟨"bonjour", 0, 0, true⟩) true
        (Processor.source_language ⟨9600, true, none, [], 0, "fr", "fr", 1⟩)
        (Processor.target_language ⟨9600, true, none, [], 0, "fr", "fr", 1⟩)) :=
  ⟨rfl,
   (translation_gating true (fun _ _ _ => none)
      ⟨9600, true, none, [], 0, "fr", "fr", 1⟩ ⟨"bonjour", 0, 0, true⟩).2.2.1
     rfl rfl rfl rfl (by decide)⟩

/-- C7: a `setLanguages` request whose source code is not in
`WHISPER_LANGUAGES` is answered with an `error` event and nothing else;
the processor state — languages, adapter generation, buffer, everything —
is returned unchanged, and no submission happens. -/
theorem unsupported_source_rejected (ta : Bool) (svc : TranslateSvc)
    (engine : List Int → Segment) (fr : Segment) (p : Processor) (s : String)
    (tgt? : Option String) (h : s ∉ WHISPER_LANGUAGES) :
    handle_message ta svc engine fr p (.setLanguages (some s) tgt?) =
      (p, [.error ("Unsupported source language: " ++ s)], none) := by
  simp only [handle_message, Option.getD_some]
  rw [if_pos h]

/-- Witness for C7: source code "xx" is unsupported; the state of a
concrete session is untouched. -/
theorem unsupported_source_rejected_witness :
    ("xx" ∉ WHISPER_LANGUAGES) ∧
    handle_message true (fun _ _ _ => none) (fun _ => ⟨none, none, ""⟩)
        ⟨none, none, ""⟩ ⟨9600, false, none, [], 0, "en", "fr", 1⟩
        (.setLanguages (some "xx") (some "de")) =
      (⟨9600, false, none, [], 0, "en", "fr", 1⟩,
       [.error ("Unsupported source language: " ++ "xx")], none) :=
  ⟨by decide,
   unsupported_source_rejected true (fun _ _ _ => none) (fun _ => ⟨none, none, ""⟩)
     ⟨none, none, ""⟩ ⟨9600, false, none, [], 0, "en", "fr", 1⟩ "xx" (some "de")
     (by decide)⟩

/-- A translation event produced by the binary branch is never an `error`
event. -/
lemma binaryTranslationEvent_not_error (ta : Bool) (svc : TranslateSvc)
    (p : Processor) (r : TranscriptionEvent) (m : ServerMsg)
    (h : binaryTranslationEvent ta svc p r = some m) : m.isError = false := by
  rw [binaryTranslationEvent] at h
  split at h
  · rcases htr : translate_text ta svc p r.text with _ | tr <;> rw [htr] at h
    · cases h
    · have h2 : (if tr = "" then (none : Option ServerMsg)
          else some (ServerMsg.translation tr r.start_ms r.end_ms true
            p.source_language p.target_language)) = some m := h
      by_cases he : tr = ""
      · rw [if_pos he] at h2
        cases h2
      · rw [if_neg he] at h2
        cases h2
        rfl
  · cases h

/-- C8: with translation enabled and the translator initialised,
`translate_text` on a session whose source equals its target returns the
input text unchanged and is independent of the external service (it is
never contacted); when the external service fails (returns none) on a
source-differs-from-target session the result is none; a none translation
suppresses the translation event in both branches; and the binary-frame
branch never sends an `error` event, so a translation failure is never
surfaced as an error. -/
theorem translate_identity_and_failure :
    (∀ (svc svc' : TranslateSvc) (p : Processor) (text : String),
      p.enable_translation = true → p.source_language = p.target_language →
      translate_text true svc p text = some text ∧
      translate_text true svc p text = translate_text true svc' p text) ∧
    (∀ (svc : TranslateSvc) (p : Processor) (text : String),
      p.enable_translation = true →
      p.source_language ≠ p.target_language →
      svc text (if p.source_language = "auto" then "auto" else p.source_language)
        p.target_language = none →
      translate_text true svc p text = none) ∧
    (∀ (ta : Bool) (svc : TranslateSvc) (p : Processor) (r : TranscriptionEvent),
      translate_text ta svc p r.text = none →
      binaryTranslationEvent ta svc p r = none ∧
      stopTranslationEvent ta svc p r = none) ∧
    (∀ (ta : Bool) (svc : TranslateSvc) (engine : List Int → Segment)
      (fr : Segment) (p : Processor) (c : List Nat) (m : ServerMsg),
      m ∈ (handle_message ta svc engine fr p (.binary c)).2.1 →
      m.isError = false) := by
  refine ⟨?_, ?_, ?_, ?_⟩
  · intro svc svc' p text hen hst
    constructor <;> simp [translate_text, hen, hst]
  · intro svc p text hen hst hsvc
    simp [translate_text, hen, hst, hsvc]
  · intro ta svc p r htr
    constructor
    · rw [binaryTranslationEvent]
      split
      · rw [htr]
      · rfl
    · rw [stopTranslationEvent]
      split
      · rw [htr]
      · rfl
  · intro ta svc engine fr p c m hm
    simp only [handle_message] at hm
    rcases hpr : (process_audio engine (add_audio_chunk p c)).2 with _ | r
    · simp only [hpr] at hm
      simp at hm
    · rcases hbt : binaryTranslationEvent ta svc
          (process_audio engine (add_audio_chunk p c)).1 r with _ | m2
      · simp only [hpr, hbt] at hm
        simp at hm
        subst hm
        rfl
      · simp only [hpr, hbt] at hm
        simp at hm
        rcases hm with hm | hm
        · subst hm
          rfl
        · subst hm
          exact binaryTranslationEvent_not_error _ _ _ _ _ hbt

/-- Witness for C8: a concrete enabled session with source = target = "fr"
and two different services; a failing service with source "en", target
"fr"; and a concrete none translation suppressing both events. -/
theorem translate_identity_and_failure_witness :
    ((⟨9600, true, none, [], 0, "fr", "fr", 1⟩ : Processor).enable_translation = true ∧
     (⟨9600, true, none, [], 0, "fr", "fr", 1⟩ : Processor).source_language =
       (⟨9600, true, none, [], 0, "fr", "fr", 1⟩ : Processor).target_language) ∧
    (translate_text true (fun _ _ _ => none)
        ⟨9600, true, none, [], 0, "fr", "fr", 1⟩ "bonjour" = some "bonjour" ∧
     translate_text true (fun _ _ _ => none)
        ⟨9600, true, none, [], 0, "fr", "fr", 1⟩ "bonjour" =
       translate_text true (fun t _ _ => some t)
        ⟨9600, true, none, [], 0, "fr", "fr", 1⟩ "bonjour") ∧
    translate_text true (fun _ _ _ => none)
        ⟨9600, true, none, [], 0, "en", "fr", 1⟩ "hello" = none := by
  have hp : ((⟨9600, true, none, [], 0, "fr", "fr", 1⟩ : Processor).enable_translation = true ∧
      (⟨9600, true, none, [], 0, "fr", "fr", 1⟩ : Processor).source_language =
        (⟨9600, true, none, [], 0, "fr", "fr", 1⟩ : Processor).target_language) :=
    ⟨rfl, rfl⟩
  refine ⟨hp, translate_identity_and_failure.1 (fun _ _ _ => none) (fun t _ _ => some t)
    ⟨9600, true, none, [], 0, "fr", "fr", 1⟩ "bonjour" hp.1 hp.2, ?_⟩
  exact translate_identity_and_failure.2.1 (fun _ _ _ => none)
    ⟨9600, true, none, [], 0, "en", "fr", 1⟩ "hello" rfl (by decide) rfl

/-- C9: a fresh session starts with source "en" and target "fr", and a
`setLanguages` message with missing sourceLanguage / targetLanguage fields
behaves exactly like one carrying "en" / "fr" — the defaults are
substituted silently and the message is never rejected with an `error`
event. -/
theorem default_languages :
    (∀ (mc : ℚ) (e : Bool), (Processor.init mc e).source_language = "en" ∧
      (Processor.init mc e).target_language = "fr") ∧
    (∀ (ta : Bool) (svc : TranslateSvc) (engine : List Int → Segment)
      (fr : Segment) (p : Processor),
      handle_message ta svc engine fr p (.setLanguages none none) =
        handle_message ta svc engine fr p (.setLanguages (some "en") (some "fr"))) ∧
    (∀ (ta : Bool) (svc : TranslateSvc) (engine : List Int → Segment)
      (fr : Segment) (p : Processor),
      ((handle_message ta svc engine fr p (.setLanguages none none)).2.1.all
        fun m => !m.isError) = true) := by
  refine ⟨fun mc e => ⟨rfl, rfl⟩, fun ta svc engine fr p => rfl, ?_⟩
  intro ta svc engine fr p
  simp only [handle_message]
  rw [if_neg (show ¬ ((none : Option String).getD "en" ∉ WHISPER_LANGUAGES) from
    by decide)]
  rcases hup : update_languages p ((none : Option String).getD "en")
      ((none : Option String).getD "fr") with ⟨p1, ch⟩
  cases ch <;> simp [ServerMsg.isError]
